import Mathlib

/-!
Verification of the schema-validation core of `h/schemas/base.py`
(`hypothesis` repository): the Draft-4 JSON-Schema wrapper (`JSONSchema.validate`,
`_format_jsonschema_error`), the recursive property pruner
(`remove_unknown_properties`), the enum node-type adapter (`enum_type`), and the
query-parameter normalizer (`combine_repeated_fields`, `_colander_exception_msg`,
`validate_query_params`).

Documents and mappings are embedded as ordered association lists, mirroring the
ordered-dict semantics of the Python runtime; external collaborators (the
`jsonschema` validation engine, the `colander` deserialization engine, and the
concrete `SearchAnnotationsSchema`) are modelled from the spec at their
interfaces, each marked as such in its doc comment.
-/

/-- A JSON-like Document: a dynamically typed value tree. Objects are ordered
key-value association lists, mirroring Python dicts. -/
inductive Doc where
  | null : Doc
  | bool (b : Bool) : Doc
  | num (n : Int) : Doc
  | str (s : String) : Doc
  | arr (xs : List Doc) : Doc
  | obj (kvs : List (String × Doc)) : Doc

/-- The JSON-type names of the Draft 4 subset used by the code:
object, array, string, number, boolean, integer. -/
inductive JTy where
  | object | array | string | number | boolean | integer
deriving DecidableEq, Repr

/-- A JSON-Schema node as the code consumes it: an optional `type` keyword, a
`required` list, and an optional `properties` mapping from names to subschemas.
(Only these keywords are read by the code under verification.) -/
inductive JSchema where
  | mk (ty : Option JTy) (required : List String) (props : Option (List (String × JSchema)))

/-- The `properties` mapping of a schema node, when present. -/
def JSchema.props : JSchema → Option (List (String × JSchema))
  | .mk _ _ p => p

/-- The `type` keyword of a schema node, when present. -/
def JSchema.ty : JSchema → Option JTy
  | .mk t _ _ => t

/-- The `required` list of a schema node. -/
def JSchema.required : JSchema → List String
  | .mk _ r _ => r

/-- First binding for a key in an association list of documents
(Python `d[k]` on a dict, where keys are unique). -/
def lookupD (k : String) : List (String × Doc) → Option Doc
  | [] => none
  | (k2, v) :: rest => if k2 == k then some v else lookupD k rest

/-- Key membership in a document object (Python `k in d`). -/
def hasKeyD (kvs : List (String × Doc)) (k : String) : Bool :=
  kvs.any (fun p => p.1 == k)

/-- First binding for a key among a schema node's properties. -/
def lookupSch (k : String) : List (String × JSchema) → Option JSchema
  | [] => none
  | (k2, v) :: rest => if k2 == k then some v else lookupSch k rest

/-- Key membership among a schema node's properties
(Python `key in schema_d`). -/
def hasKeySch (props : List (String × JSchema)) (k : String) : Bool :=
  props.any (fun p => p.1 == k)

mutual

/-- Structural deep copy of a Document, embedding Python's `copy.deepcopy`
as used in `JSONSchema.validate`: it rebuilds every node of the tree. -/
def deepcopy : Doc → Doc
  | .null => .null
  | .bool b => .bool b
  | .num n => .num n
  | .str s => .str s
  | .arr xs => .arr (deepcopyList xs)
  | .obj kvs => .obj (deepcopyKvs kvs)

/-- Deep copy of an array's elements. -/
def deepcopyList : List Doc → List Doc
  | [] => []
  | x :: rest => deepcopy x :: deepcopyList rest

/-- Deep copy of an object's bindings. -/
def deepcopyKvs : List (String × Doc) → List (String × Doc)
  | [] => []
  | (k, v) :: rest => (k, deepcopy v) :: deepcopyKvs rest

end

mutual

/-- One step of `remove_unknown_properties` on a retained value: when the value
is object-shaped and its schema node has a nested `properties` entry, the pair
is pushed on the work list (here: recursed into); otherwise the value is left
untouched, even if it is object-shaped. Embeds lines 101-108 of
`h/schemas/base.py`. -/
def pruneVal (v : Doc) (sch : JSchema) : Doc :=
  match v, sch with
  | .obj sub, .mk _ _ (some ps) => .obj (pruneKvs sub ps)
  | v, _ => v

/-- The per-level body of `remove_unknown_properties`: delete every key of the
object that is not among the schema's property names, and recurse into retained
dict values whose schema node has nested properties. The Python work-list
processes pairwise-disjoint subtrees, so the in-place loop is equivalent to
this structural recursion. Embeds lines 93-108 of `h/schemas/base.py`. -/
def pruneKvs : List (String × Doc) → List (String × JSchema) → List (String × Doc)
  | [], _ => []
  | (k, v) :: rest, props =>
    if hasKeySch props k then
      (k, match lookupSch k props with
          | some sch => pruneVal v sch
          | none => v) :: pruneKvs rest props
    else
      pruneKvs rest props

end

/-- `remove_unknown_properties(data, schema)` from `h/schemas/base.py`: seeds
the work list with `(data, schema["properties"])`. `none` models the Python
`KeyError` when the schema has no `properties` entry. The Python function
mutates `data` in place; the embedding returns the final value of `data`. -/
def removeUnknownProperties (data : List (String × Doc)) (schema : JSchema) :
    Option (List (String × Doc)) :=
  match schema.props with
  | some ps => some (pruneKvs data ps)
  | none => none

/-- A single violation collected by the validation engine: a path (list of
components from the root) and a human-readable message. -/
structure JError where
  path : List String
  message : String
deriving DecidableEq, Repr

/-- Name of a JSON type, used in type-mismatch messages. -/
def JTy.name : JTy → String
  | .object => "object"
  | .array => "array"
  | .string => "string"
  | .number => "number"
  | .boolean => "boolean"
  | .integer => "integer"

/-- Whether a document value matches a Draft 4 `type` keyword. Numbers are
embedded as integers, so they satisfy both `number` and `integer`. -/
def typeMatches : JTy → Doc → Bool
  | .object, .obj _ => true
  | .array, .arr _ => true
  | .string, .str _ => true
  | .boolean, .bool _ => true
  | .number, .num _ => true
  | .integer, .num _ => true
  | _, _ => false

mutual

/-- Modelled from the spec: the external `jsonschema.Draft4Validator.iter_errors`
engine (not part of this repository), restricted to the documented subset
(type check, required-field check, nested-object recursion through
`properties`). It collects every violation in one pass, in schema traversal
order, each carrying its path from the root. -/
def iterErrors (sch : JSchema) (d : Doc) (path : List String) : List JError :=
  match sch with
  | .mk ty? req props? =>
    let tyErrs :=
      match ty? with
      | some ty =>
        if typeMatches ty d then []
        else [⟨path, "is not of type " ++ JTy.name ty⟩]
      | none => []
    match d with
    | .obj kvs =>
      let reqErrs :=
        (req.filter (fun r => ¬ hasKeyD kvs r)).map
          (fun r => ⟨path, "'" ++ r ++ "' is a required property"⟩)
      let propErrs :=
        match props? with
        | some ps => iterErrorsProps ps kvs path
        | none => []
      tyErrs ++ reqErrs ++ propErrs
    | _ => tyErrs

/-- Modelled from the spec: recursion of the validation engine into the
`properties` of an object instance, visiting present keys in schema order. -/
def iterErrorsProps (ps : List (String × JSchema)) (kvs : List (String × Doc))
    (path : List String) : List JError :=
  match ps with
  | [] => []
  | (k, s) :: rest =>
    (match lookupD k kvs with
     | some v => iterErrors s v (path ++ [k])
     | none => []) ++ iterErrorsProps rest kvs path

end

/-- `_format_jsonschema_error(error)` from `h/schemas/base.py`: a violation
with a non-empty path renders as the dot-joined path, a colon-space, and the
message; a violation with an empty path renders as the message alone. -/
def formatJsonschemaError (e : JError) : String :=
  if e.path.isEmpty then e.message
  else String.intercalate "." e.path ++ ": " ++ e.message

/-- `JSONSchema.validate(data)` from `h/schemas/base.py`: deep-copy the input,
collect every violation on the copy, and either raise a `ValidationError`
whose message comma-joins the formatted violations, or return the copy. -/
def JSONSchema.validate (schema : JSchema) (data : Doc) : Except String Doc :=
  let appstruct := deepcopy data
  let errors := iterErrors schema appstruct []
  if errors.isEmpty then .ok appstruct
  else .error (String.intercalate ", " (errors.map formatJsonschemaError))

/-- A colander node type as `combine_repeated_fields` and the query schema use
it: strings, integers, booleans, enumerated string tokens, and sequences of
strings. Only sequence-ness is inspected by `combine_repeated_fields`. -/
inductive ColTy where
  | strT : ColTy
  | intT : ColTy
  | boolT : ColTy
  | enumT (allowed : List String) : ColTy
  | seqStrT : ColTy
deriving DecidableEq, Repr

/-- Python `isinstance(node.typ, colander.Sequence)`. -/
def ColTy.isSequence : ColTy → Bool
  | .seqStrT => true
  | _ => false

/-- A colander schema node: a field name and a node type. -/
structure ColNode where
  name : String
  typ : ColTy
deriving DecidableEq, Repr

/-- A colander mapping schema: the ordered children of the root node. -/
structure ColSchema where
  children : List ColNode
deriving DecidableEq, Repr

/-- `colander.SchemaNode.get(name)`: the child node with the given name, or
Python `None` (colander nodes define no truthiness override, so `not node`
in the source is exactly this `Option` being `none`). -/
def ColSchema.get (s : ColSchema) (k : String) : Option ColNode :=
  s.children.find? (fun n => n.name == k)

/-- A value of the dict produced by `combine_repeated_fields`: either the last
scalar string supplied for the key, or the full ordered list of strings. -/
inductive ScalarOrList where
  | scalar (s : String) : ScalarOrList
  | list (vs : List String) : ScalarOrList
deriving DecidableEq, Repr

/-- One step of `webob.multidict.MultiDict.dict_of_lists`: append the value to
the key's list if the key was seen before, otherwise append a new singleton
binding at the end (Python dict insertion order: first occurrence). -/
def addToLists : List (String × List String) → String × String → List (String × List String)
  | [], (k, v) => [(k, [v])]
  | (k2, vs) :: rest, (k, v) =>
    if k2 == k then (k2, vs ++ [v]) :: rest
    else (k2, vs) :: addToLists rest (k, v)

/-- `MultiDict.dict_of_lists()` (external collaborator of
`combine_repeated_fields`): group the ordered (key, value) pairs by key,
preserving first-occurrence key order and per-key value order. -/
def dictOfLists (data : List (String × String)) : List (String × List String) :=
  data.foldl addToLists []

/-- Last element of a value list; `values[-1]` in the source, where the list is
non-empty by construction of `dict_of_lists`. -/
def lastValue (vs : List String) : String :=
  vs.getLastD ""

/-- `combine_repeated_fields(schema, data)` from `h/schemas/base.py`: group the
multidict by key, then for every key whose schema node is missing or whose type
is not a colander `Sequence`, keep only the last value; a key with a `Sequence`
node keeps the full ordered list. -/
def combineRepeatedFields (schema : ColSchema) (data : List (String × String)) :
    List (String × ScalarOrList) :=
  (dictOfLists data).map (fun kv =>
    match schema.get kv.1 with
    | some node =>
      if node.typ.isSequence then (kv.1, .list kv.2)
      else (kv.1, .scalar (lastValue kv.2))
    | none => (kv.1, .scalar (lastValue kv.2)))

/-- A `colander.Invalid` exception node: the keyname contributed by the failing
schema node ("" for the unnamed root), its own messages, and nested child
errors. -/
inductive ColInvalid where
  | mk (keyname : String) (msgs : List String) (children : List ColInvalid)

/-- The keyname of an error node. -/
def ColInvalid.keyname : ColInvalid → String
  | .mk k _ _ => k

/-- The messages of an error node itself. -/
def ColInvalid.msgs : ColInvalid → List String
  | .mk _ m _ => m

/-- The child errors of an error node. -/
def ColInvalid.children : ColInvalid → List ColInvalid
  | .mk _ _ c => c

/-- Python `d[k] = v` on an ordered dict: replace the binding in place if the
key is present, otherwise append the new binding at the end. -/
def insertOverwrite : List (String × String) → String → String → List (String × String)
  | [], k, v => [(k, v)]
  | (k2, v2) :: rest, k, v =>
    if k2 == k then (k2, v) :: rest
    else (k2, v2) :: insertOverwrite rest k v

/-- Python `d.update(d2)` on ordered dicts: fold every binding of `d2` into `d`,
overwriting existing keys in place and appending new ones. -/
def dictUpdate (d d2 : List (String × String)) : List (String × String) :=
  d2.foldl (fun acc kv => insertOverwrite acc kv.1 kv.2) d

/-- First binding for a key in a string-to-string ordered dict. -/
def lookupS (k : String) : List (String × String) → Option String
  | [] => none
  | (k2, v) :: rest => if k2 == k then some v else lookupS k rest

/-- The binding a Python dict built with repeated assignments would hold:
the last occurrence of the key in the pair list. -/
def lastLookup (k : String) (d : List (String × String)) : Option String :=
  lookupS k d.reverse

mutual

/-- Modelled from the spec: `colander.Invalid.asdict` (external engine code),
flattening one root-to-leaf path of the error tree. The accumulated keyparts
(non-empty keynames from the root) join with dots to form the field path, and
the accumulated messages join with the engine's default "; " separator. -/
def asdictPath (keyparts : List String) (msgs : List String) :
    ColInvalid → List (String × String)
  | .mk kn ms cs =>
    let kp := if kn == "" then keyparts else keyparts ++ [kn]
    let acc := msgs ++ ms
    match cs with
    | [] => [(String.intercalate "." kp, String.intercalate "; " acc)]
    | c :: rest => asdictPathList kp acc (c :: rest)

/-- Modelled from the spec: flattening of a list of sibling subtrees. -/
def asdictPathList (keyparts : List String) (msgs : List String) :
    List ColInvalid → List (String × String)
  | [] => []
  | c :: rest => asdictPath keyparts msgs c ++ asdictPathList keyparts msgs rest

end

/-- Modelled from the spec: `colander.Invalid.asdict()`, the error report of
one exception node as a path-to-message dict (later leaves overwrite earlier
ones at an equal path, as Python dict assignment does). -/
def ColInvalid.asdict (e : ColInvalid) : List (String × String) :=
  (asdictPath [] [] e).foldl (fun d kv => insertOverwrite d kv.1 kv.2) []

/-- `_colander_exception_msg(exc)` from `h/schemas/base.py`: start from the
top-level error's `asdict()`, merge each child error's `asdict()` over it
(children overwrite), then newline-join the "field: err" renderings. -/
def colanderExceptionMsg (exc : ColInvalid) : String :=
  let msgDict := exc.children.foldl (fun d c => dictUpdate d c.asdict) exc.asdict
  String.intercalate "\n" (msgDict.map (fun kv => kv.1 ++ ": " ++ kv.2))

/-- A deserialized query-parameter value: string, integer, boolean, or list of
strings, per the node kinds of the search schema. -/
inductive QVal where
  | str (s : String) : QVal
  | int (n : Int) : QVal
  | bool (b : Bool) : QVal
  | strList (vs : List String) : QVal
deriving DecidableEq, Repr

/-- First binding for a key in the combined-parameter dict. -/
def lookupSL (k : String) : List (String × ScalarOrList) → Option ScalarOrList
  | [] => none
  | (k2, v) :: rest => if k2 == k then some v else lookupSL k rest

/-- First binding for a key in a deserialized result dict. -/
def lookupQ (k : String) : List (String × QVal) → Option QVal
  | [] => none
  | (k2, v) :: rest => if k2 == k then some v else lookupQ k rest

/-- Decimal digits to a number, accumulator style; `none` on a non-digit or an
empty digit list. -/
def digitsToNatAux : List Char → Nat → Option Nat
  | [], acc => some acc
  | c :: rest, acc =>
    if c.isDigit then digitsToNatAux rest (acc * 10 + (c.toNat - '0'.toNat))
    else none

/-- Modelled from the spec: the numeric-string to number coercion (Python
`int(value)` inside the engine's Integer type) — an optional sign followed by
decimal digits; anything else is a failure. -/
def parseInt (s : String) : Option Int :=
  match s.data with
  | [] => none
  | '-' :: rest => if rest.isEmpty then none else (digitsToNatAux rest 0).map (fun n => -(n : Int))
  | '+' :: rest => if rest.isEmpty then none else (digitsToNatAux rest 0).map (fun n => (n : Int))
  | ds => (digitsToNatAux ds 0).map (fun n => (n : Int))

/-- Modelled from the spec: per-field deserialization of the colander engine —
numeric-string to number, boolean-string to boolean, enum token checked against
the set of legal values, sequence kept as a list. A failure is an `Invalid`
keyed by the field's name. -/
def deserializeField (name : String) (ty : ColTy) (v : ScalarOrList) :
    Except ColInvalid QVal :=
  match ty, v with
  | .strT, .scalar s => .ok (.str s)
  | .intT, .scalar s =>
    match parseInt s with
    | some n => .ok (.int n)
    | none => .error (.mk name ["\"" ++ s ++ "\" is not a number"] [])
  | .boolT, .scalar s =>
    if s == "true" then .ok (.bool true)
    else if s == "false" then .ok (.bool false)
    else .error (.mk name ["\"" ++ s ++ "\" is not a boolean"] [])
  | .enumT allowed, .scalar s =>
    if allowed.contains s then .ok (.str s)
    else .error (.mk name ["\"" ++ s ++ "\" is not a known value"] [])
  | .seqStrT, .list vs => .ok (.strList vs)
  | .seqStrT, .scalar s => .error (.mk name ["\"" ++ s ++ "\" is not iterable"] [])
  | _, .list _ => .error (.mk name ["invalid value"] [])

/-- Modelled from the spec: `colander.Schema.deserialize` on a mapping schema —
visit the schema's children in order, deserialize each field present in the
input (absent fields drop, unknown input keys are dropped because only schema
children are visited), and either return the result mapping or raise a root
`Invalid` whose children are the per-field failures. -/
def schemaDeserialize (schema : ColSchema) (data : List (String × ScalarOrList)) :
    Except ColInvalid (List (String × QVal)) :=
  let results := schema.children.filterMap (fun node =>
    (lookupSL node.name data).map (fun v => (node.name, deserializeField node.name node.typ v)))
  let errs := results.filterMap (fun p =>
    match p.2 with
    | .error e => some e
    | .ok _ => none)
  if errs.isEmpty then
    .ok (results.filterMap (fun p =>
      match p.2 with
      | .ok v => some (p.1, v)
      | .error _ => none))
  else
    .error (.mk "" [] errs)

/-- Modelled from the spec: the concrete `SearchAnnotationsSchema` of the demo
scenario (that schema's module is not part of the sources): `order` an enum
field, `limit` an integer, `_separate_replies` a boolean, `offset` an integer
scalar, `quote` a sequence of strings, and no `ignore_me` field. -/
def searchAnnotationsSchema : ColSchema :=
  ⟨[⟨"order", .enumT ["asc", "desc"]⟩,
    ⟨"limit", .intT⟩,
    ⟨"_separate_replies", .boolT⟩,
    ⟨"offset", .intT⟩,
    ⟨"quote", .seqStrT⟩]⟩

/-- `validate_query_params(schema, params)` from `h/schemas/base.py`: combine
the repeated fields, deserialize through the schema, and convert a colander
`Invalid` into a `ValidationError` carrying `_colander_exception_msg`. -/
def validateQueryParams (schema : ColSchema) (params : List (String × String)) :
    Except String (List (String × QVal)) :=
  match schemaDeserialize schema (combineRepeatedFields schema params) with
  | .ok result => .ok result
  | .error exc => .error (colanderExceptionMsg exc)

/-- A member of a Python enum class: its name and its backing value. -/
structure EnumMember where
  name : String
  value : Int
deriving DecidableEq, Repr

/-- A Python enum class as `enum_type` consumes it: its ordered members, and
whether it is int-backed (an `enum.IntEnum`). A member of a plain `Enum` is
always truthy; a member of an `IntEnum` is falsy exactly when its backing
integer is zero — this drives the `if not appstruct` test in `serialize`. -/
structure EnumCls where
  members : List EnumMember
  intBased : Bool
deriving DecidableEq, Repr

/-- Python truthiness of `not appstruct` on an enum member. -/
def enumFalsy (cls : EnumCls) (m : EnumMember) : Bool :=
  cls.intBased && m.value == 0

/-- Python `enum_cls[name]`: look a member up by name (never by value). -/
def enumGetItem (cls : EnumCls) (token : String) : Option EnumMember :=
  cls.members.find? (fun m => m.name == token)

/-- The cstruct handed to `EnumType.deserialize`: either the `colander.null`
sentinel (a distinct object, equal to no string — in particular not to "") or
a raw string token. -/
inductive Cstruct where
  | null : Cstruct
  | str (s : String) : Cstruct
deriving DecidableEq, Repr

/-- `EnumType.deserialize(node, cstruct)` from `enum_type` in
`h/schemas/base.py`: the null sentinel maps to Python `None` (absent); any
string token is looked up as a member name, and a failed lookup raises
`colander.Invalid` on the node with the message `"<token>" is not a known
value`. -/
def EnumType.deserialize (cls : EnumCls) (node : ColNode) (cstruct : Cstruct) :
    Except ColInvalid (Option EnumMember) :=
  match cstruct with
  | .null => .ok none
  | .str s =>
    match enumGetItem cls s with
    | some m => .ok (some m)
    | none => .error (.mk node.name ["\"" ++ s ++ "\" is not a known value"] [])

/-- `EnumType.serialize(node, appstruct)` from `enum_type` in
`h/schemas/base.py`: a falsy appstruct (Python `None`, or a falsy member such
as an `IntEnum` member of value 0) serializes to the empty string; any other
member serializes to its name. -/
def EnumType.serialize (cls : EnumCls) (node : ColNode) (appstruct : Option EnumMember) :
    String :=
  match appstruct with
  | none => ""
  | some m => if enumFalsy cls m then "" else m.name

/-- The multimap of the demo scenario (`src/query_validation_demo.py`), in
arrival order. -/
def demoParams : List (String × String) :=
  [("order", "asc"), ("limit", "5"), ("_separate_replies", "true"),
   ("offset", "10"), ("offset", "20"), ("quote", "foo"), ("quote", "bar"),
   ("ignore_me", "whatever")]

/-- The mapping the demo scenario asserts as the validated result. -/
def demoExpected : List (String × QVal) :=
  [("order", .str "asc"), ("limit", .int 5), ("_separate_replies", .bool true),
   ("offset", .int 20), ("quote", .strList ["foo", "bar"])]

/-- A plain (non-int-backed) enum class with two members, standing for the
demo's order enum: every member is truthy. -/
def orderEnum : EnumCls :=
  ⟨[⟨"asc", 1⟩, ⟨"desc", 2⟩], false⟩

/-- An int-backed enum class with a member of backing value 0: that member is
falsy in Python, which is what the `if not appstruct` test in `serialize`
reacts to. -/
def intZeroEnum : EnumCls :=
  ⟨[⟨"zero", 0⟩, ⟨"one", 1⟩], true⟩

/-- A schema node to hand to the enum adapter in concrete runs. -/
def orderNode : ColNode :=
  ⟨"order", .enumT ["asc", "desc"]⟩

mutual

/-- Decidable equality of colander error trees (hand-written: the nested
`List ColInvalid` blocks the derive handler). -/
def colInvalidDecEq : (a b : ColInvalid) → Decidable (a = b)
  | .mk k1 m1 c1, .mk k2 m2 c2 =>
    if hk : k1 = k2 then
      if hm : m1 = m2 then
        match colInvalidListDecEq c1 c2 with
        | .isTrue hc => .isTrue (by rw [hk, hm, hc])
        | .isFalse hc => .isFalse (by intro h; cases h; exact hc rfl)
      else .isFalse (by intro h; cases h; exact hm rfl)
    else .isFalse (by intro h; cases h; exact hk rfl)

/-- Decidable equality of lists of colander error trees. -/
def colInvalidListDecEq : (a b : List ColInvalid) → Decidable (a = b)
  | [], [] => .isTrue rfl
  | [], _ :: _ => .isFalse (by intro h; cases h)
  | _ :: _, [] => .isFalse (by intro h; cases h)
  | x :: xs, y :: ys =>
    match colInvalidDecEq x y, colInvalidListDecEq xs ys with
    | .isTrue h1, .isTrue h2 => .isTrue (by rw [h1, h2])
    | .isFalse h1, _ => .isFalse (by intro h; cases h; exact h1 rfl)
    | .isTrue _, .isFalse h2 => .isFalse (by intro h; cases h; exact h2 rfl)

end

instance : DecidableEq ColInvalid := colInvalidDecEq

deriving instance DecidableEq for Except

/-- First binding for a key in the grouped multimap. -/
def lookupVals (k : String) : List (String × List String) → Option (List String)
  | [] => none
  | (k2, vs) :: rest => if k2 == k then some vs else lookupVals k rest

/-- Whether a key occurs in the raw multimap. -/
def hasKeyMM (data : List (String × String)) (k : String) : Bool :=
  data.any (fun p => p.1 == k)

/-- All values supplied for a key in the raw multimap, in arrival order. -/
def selValues (data : List (String × String)) (k : String) : List String :=
  (data.filter (fun p => p.1 == k)).map Prod.snd

/-- The nested properties mapping of a concrete pruning fixture. -/
def pruneDemoProps : List (String × JSchema) :=
  [("a", .mk (some .object) [] (some [("x", .mk (some .string) [] none)])),
   ("b", .mk (some .string) [] none)]

/-- A concrete jsonschema with the fixture's properties mapping. -/
def pruneDemoSchema : JSchema :=
  .mk (some .object) [] (some pruneDemoProps)

/-- A concrete document with an unknown top-level key and an unknown nested
key. -/
def pruneDemoDoc : List (String × Doc) :=
  [("a", .obj [("x", .str "1"), ("y", .str "2")]),
   ("b", .obj [("z", .str "3")]),
   ("junk", .str "4")]

mutual

theorem deepcopy_eq : ∀ d : Doc, deepcopy d = d
  | .null => rfl
  | .bool _ => rfl
  | .num _ => rfl
  | .str _ => rfl
  | .arr xs => by rw [deepcopy, deepcopyList_eq]
  | .obj kvs => by rw [deepcopy, deepcopyKvs_eq]

theorem deepcopyList_eq : ∀ xs : List Doc, deepcopyList xs = xs
  | [] => rfl
  | x :: rest => by rw [deepcopyList, deepcopy_eq, deepcopyList_eq]

theorem deepcopyKvs_eq : ∀ kvs : List (String × Doc), deepcopyKvs kvs = kvs
  | [] => rfl
  | (k, v) :: rest => by rw [deepcopyKvs, deepcopy_eq, deepcopyKvs_eq]

end

/-- C1: for the demo multimap (order=asc, limit=5, _separate_replies=true,
offset=10, offset=20, quote=foo, quote=bar, ignore_me=whatever) validated
against the search schema (order enum, limit integer, _separate_replies
boolean, offset integer scalar, quote sequence of strings, no ignore_me
field), `validate_query_params` returns exactly the mapping order=asc,
limit=5, _separate_replies=true, offset=20, quote=[foo, bar], and ignore_me
is absent from the result. -/
theorem validate_query_params_demo_scenario :
    validateQueryParams searchAnnotationsSchema demoParams = .ok demoExpected
    ∧ lookupQ "ignore_me" demoExpected = none := by
  constructor
  · decide
  · decide

/-- C3: for every Document that satisfies the schema (the validation engine
collects no violation on it), `JSONSchema.validate` returns a value deep-equal
to the input, and the deep copy it validates is itself deep-equal to the input
(the caller's object is never touched: only the copy is handed to the engine,
and in this pure embedding values are immutable, so no caller-visible mutation
can occur on success or failure). -/
theorem json_schema_validate_returns_input (schema : JSchema) (d : Doc)
    (h : iterErrors schema d [] = []) :
    JSONSchema.validate schema d = .ok d ∧ deepcopy d = d := by
  refine ⟨?_, deepcopy_eq d⟩
  simp only [JSONSchema.validate, deepcopy_eq, h]
  rfl

/-- Witness for C3 at a concrete schema and document. -/
theorem json_schema_validate_returns_input_witness :
    iterErrors (.mk (some .object) ["name"] (some [("name", .mk (some .string) [] none)]))
      (.obj [("name", .str "x")]) [] = []
    ∧ JSONSchema.validate
        (.mk (some .object) ["name"] (some [("name", .mk (some .string) [] none)]))
        (.obj [("name", .str "x")]) = .ok (.obj [("name", .str "x")])
      ∧ deepcopy (.obj [("name", .str "x")]) = .obj [("name", .str "x")] :=
  ⟨rfl, json_schema_validate_returns_input _ _ rfl⟩

/-- C4: `JSONSchema.validate` raises exactly when the engine collects at least
one violation, and the raised message comma-joins, over every collected
violation, the dotted path followed by a colon and the message, the path
prefix being omitted when the violation's path is empty; with no violation it
returns the validated copy. -/
theorem json_schema_validate_error_format (schema : JSchema) (d : Doc) :
    JSONSchema.validate schema d =
      (match iterErrors schema d [] with
       | [] => .ok d
       | es => .error (String.intercalate ", " (es.map (fun e =>
           if e.path.isEmpty then e.message
           else String.intercalate "." e.path ++ ": " ++ e.message)))) := by
  cases hE : iterErrors schema d [] with
  | nil => simp only [JSONSchema.validate, deepcopy_eq, hE]; rfl
  | cons e es => simp only [JSONSchema.validate, deepcopy_eq, hE]; rfl

/-- The keys retained by one pruning level are exactly the document's keys
filtered to the schema's property names, in document order. -/
theorem pruneKvs_keys (kvs : List (String × Doc)) (props : List (String × JSchema)) :
    (pruneKvs kvs props).map Prod.fst =
      (kvs.map Prod.fst).filter (fun k => hasKeySch props k) := by
  induction kvs with
  | nil => rfl
  | cons kv rest ih =>
    obtain ⟨k, v⟩ := kv
    by_cases hk : hasKeySch props k
    · simp [pruneKvs, hk, ih]
    · simp [pruneKvs, hk, ih]

/-- The value bound to a retained key after pruning is the original value,
transformed only by the recursive pruning step for its schema node. -/
theorem pruneKvs_lookup (kvs : List (String × Doc)) (props : List (String × JSchema))
    (k : String) :
    lookupD k (pruneKvs kvs props) =
      (if hasKeySch props k then
        (lookupD k kvs).map (fun v =>
          match lookupSch k props with
          | some sch => pruneVal v sch
          | none => v)
      else none) := by
  induction kvs with
  | nil => cases hk : hasKeySch props k <;> simp [pruneKvs, lookupD, hk]
  | cons kv rest ih =>
    obtain ⟨k1, v1⟩ := kv
    by_cases he : k1 = k
    · subst he
      by_cases hk : hasKeySch props k1
      · simp [pruneKvs, hk, lookupD]
      · simp [pruneKvs, hk, ih]
    · have hbe : (k1 == k) = false := by simp [he]
      by_cases hk : hasKeySch props k1
      · simp [pruneKvs, hk, lookupD, hbe, ih]
      · simp [pruneKvs, hk, lookupD, hbe, ih]

/-- A value whose schema node has no nested properties entry is left entirely
untouched by pruning, even when it is object-shaped. -/
theorem pruneVal_no_props (v : Doc) (sch : JSchema) (h : sch.props = none) :
    pruneVal v sch = v := by
  obtain ⟨ty, req, props⟩ := sch
  simp only [JSchema.props] at h
  subst h
  cases v <;> rfl

/-- C2: for every document object and every schema with a properties mapping,
remove_unknown_properties runs the per-level prune seeded at the schema's
properties; at each level the retained keys are exactly the intersection of
the document's keys with the schema's property names (so no key is ever
added), the value bound to a retained key is the original value transformed
only by the recursive prune for its schema node, and a value whose schema node
has no nested properties entry is left entirely untouched. -/
theorem remove_unknown_properties_spec (data : List (String × Doc)) (S : JSchema)
    (ps : List (String × JSchema)) (k : String) (v : Doc) (sch : JSchema)
    (hS : S.props = some ps) (hsch : sch.props = none) :
    removeUnknownProperties data S = some (pruneKvs data ps)
    ∧ (pruneKvs data ps).map Prod.fst =
        (data.map Prod.fst).filter (fun k2 => hasKeySch ps k2)
    ∧ lookupD k (pruneKvs data ps) =
        (if hasKeySch ps k then
          (lookupD k data).map (fun v2 =>
            match lookupSch k ps with
            | some sch2 => pruneVal v2 sch2
            | none => v2)
        else none)
    ∧ pruneVal v sch = v := by
  refine ⟨?_, pruneKvs_keys data ps, pruneKvs_lookup data ps k, pruneVal_no_props v sch hsch⟩
  simp [removeUnknownProperties, hS]

/-- Witness for C2 at a concrete document and schema: a document with an
unknown top-level key, an unknown nested key, and an object-shaped value whose
schema node has no nested properties. -/
theorem remove_unknown_properties_spec_witness :
    pruneDemoSchema.props = some pruneDemoProps
    ∧ (JSchema.mk (some .string) [] none).props = none
    ∧ (removeUnknownProperties pruneDemoDoc pruneDemoSchema =
        some (pruneKvs pruneDemoDoc pruneDemoProps)
      ∧ (pruneKvs pruneDemoDoc pruneDemoProps).map Prod.fst =
          (pruneDemoDoc.map Prod.fst).filter (fun k2 => hasKeySch pruneDemoProps k2)
      ∧ lookupD "b" (pruneKvs pruneDemoDoc pruneDemoProps) =
          (if hasKeySch pruneDemoProps "b" then
            (lookupD "b" pruneDemoDoc).map (fun v2 =>
              match lookupSch "b" pruneDemoProps with
              | some sch2 => pruneVal v2 sch2
              | none => v2)
          else none)
      ∧ pruneVal (.obj [("z", .str "3")]) (JSchema.mk (some .string) [] none) =
          .obj [("z", .str "3")]) :=
  ⟨rfl, rfl,
   remove_unknown_properties_spec pruneDemoDoc pruneDemoSchema pruneDemoProps "b"
     (.obj [("z", .str "3")]) (JSchema.mk (some .string) [] none) rfl rfl⟩

/-- Adding one (key, value) pair to the grouped multimap appends the value to
the key's list, or starts a new singleton list for an unseen key. -/
theorem lookupVals_addToLists (acc : List (String × List String)) (k1 v1 k : String) :
    lookupVals k (addToLists acc (k1, v1)) =
      (if k1 == k then
        match lookupVals k acc with
        | some vs => some (vs ++ [v1])
        | none => some [v1]
      else lookupVals k acc) := by
  induction acc with
  | nil =>
    by_cases h : k1 = k
    · subst h; simp [addToLists, lookupVals]
    · simp [addToLists, lookupVals, h]
  | cons kv rest ih =>
    obtain ⟨k2, vs⟩ := kv
    by_cases h21 : k2 = k1
    · subst h21
      by_cases h2k : k2 = k
      · subst h2k; simp [addToLists, lookupVals]
      · simp [addToLists, lookupVals, h2k]
    · by_cases h2k : k2 = k
      · subst h2k
        have h1k : (k1 == k2) = false := by
          simp
          exact Ne.symm h21
        have hb : (k2 == k1) = false := by simp [h21]
        simp [addToLists, lookupVals, hb, h1k]
      · have hb : (k2 == k1) = false := by simp [h21]
        simp [addToLists, lookupVals, hb, h2k, ih]

/-- Grouping invariant of `dict_of_lists`: folding the multimap into an
accumulator extends each key's list with the key's remaining arrival-ordered
values. -/
theorem lookupVals_foldl (data : List (String × String))
    (acc : List (String × List String)) (k : String) :
    lookupVals k (data.foldl addToLists acc) =
      (match lookupVals k acc with
       | some vs => some (vs ++ selValues data k)
       | none => if hasKeyMM data k then some (selValues data k) else none) := by
  induction data generalizing acc with
  | nil =>
    cases h : lookupVals k acc <;> simp [selValues, hasKeyMM, h]
  | cons kv rest ih =>
    obtain ⟨k1, v1⟩ := kv
    have hsel : selValues ((k1, v1) :: rest) k =
        (if k1 == k then v1 :: selValues rest k else selValues rest k) := by
      by_cases h : k1 = k <;> simp [selValues, h]
    have hkey : hasKeyMM ((k1, v1) :: rest) k = ((k1 == k) || hasKeyMM rest k) := by
      simp [hasKeyMM]
    rw [List.foldl_cons, ih, lookupVals_addToLists, hsel, hkey]
    by_cases h1 : k1 = k
    · subst h1
      cases h : lookupVals k1 acc <;> simp
    · have : (k1 == k) = false := by simp [h1]
      rw [this]
      simp

/-- `dict_of_lists` maps every key of the multimap to the ordered list of all
values supplied for it, and binds no other key. -/
theorem lookupVals_dictOfLists (data : List (String × String)) (k : String) :
    lookupVals k (dictOfLists data) =
      (if hasKeyMM data k then some (selValues data k) else none) := by
  rw [dictOfLists, lookupVals_foldl]
  rfl

/-- Looking a key up after the per-key collapse of `combine_repeated_fields`
is the collapse of the key's grouped value list. -/
theorem lookupSL_map_collapse (schema : ColSchema) (k : String)
    (l : List (String × List String)) :
    lookupSL k (l.map (fun kv =>
      match schema.get kv.1 with
      | some node =>
        if node.typ.isSequence then (kv.1, ScalarOrList.list kv.2)
        else (kv.1, ScalarOrList.scalar (lastValue kv.2))
      | none => (kv.1, ScalarOrList.scalar (lastValue kv.2)))) =
    (lookupVals k l).map (fun vs =>
      match schema.get k with
      | some node =>
        if node.typ.isSequence then ScalarOrList.list vs
        else ScalarOrList.scalar (lastValue vs)
      | none => ScalarOrList.scalar (lastValue vs)) := by
  induction l with
  | nil => simp [lookupVals, lookupSL]
  | cons kv rest ih =>
    obtain ⟨k2, vs⟩ := kv
    by_cases h : k2 = k
    · subst h
      cases hg : schema.get k2 with
      | none => simp [lookupVals, lookupSL, hg]
      | some node =>
        by_cases hs : node.typ.isSequence <;> simp [lookupVals, lookupSL, hg, hs]
    · have hb : (k2 == k) = false := by simp [h]
      cases hg : schema.get k2 with
      | none => simp [lookupVals, lookupSL, hg, hb, ih]
      | some node =>
        by_cases hs : node.typ.isSequence <;> simp [lookupVals, lookupSL, hg, hs, hb, ih]

/-- C5: for every key present in the multimap, `combine_repeated_fields` binds
it to the last value supplied when the schema has no node of that name or the
node's type is not a Sequence, and to the full ordered list of all supplied
values when the node's type is a Sequence. -/
theorem combine_repeated_fields_spec (schema : ColSchema) (data : List (String × String))
    (k : String) (h : hasKeyMM data k = true) :
    lookupSL k (combineRepeatedFields schema data) =
      some (match schema.get k with
        | some node =>
          if node.typ.isSequence then ScalarOrList.list (selValues data k)
          else ScalarOrList.scalar (lastValue (selValues data k))
        | none => ScalarOrList.scalar (lastValue (selValues data k))) := by
  rw [combineRepeatedFields, lookupSL_map_collapse, lookupVals_dictOfLists, h]
  rfl

/-- Witness for C5 on the demo multimap: the repeated scalar key offset
collapses to its last value 20, and the repeated sequence key quote keeps the
full list [foo, bar]. -/
theorem combine_repeated_fields_spec_witness :
    (hasKeyMM demoParams "offset" = true
      ∧ lookupSL "offset" (combineRepeatedFields searchAnnotationsSchema demoParams) =
          some (match searchAnnotationsSchema.get "offset" with
            | some node =>
              if node.typ.isSequence then ScalarOrList.list (selValues demoParams "offset")
              else ScalarOrList.scalar (lastValue (selValues demoParams "offset"))
            | none => ScalarOrList.scalar (lastValue (selValues demoParams "offset"))))
    ∧ (hasKeyMM demoParams "quote" = true
      ∧ lookupSL "quote" (combineRepeatedFields searchAnnotationsSchema demoParams) =
          some (match searchAnnotationsSchema.get "quote" with
            | some node =>
              if node.typ.isSequence then ScalarOrList.list (selValues demoParams "quote")
              else ScalarOrList.scalar (lastValue (selValues demoParams "quote"))
            | none => ScalarOrList.scalar (lastValue (selValues demoParams "quote")))) :=
  ⟨⟨by decide, combine_repeated_fields_spec searchAnnotationsSchema demoParams "offset" (by decide)⟩,
   ⟨by decide, combine_repeated_fields_spec searchAnnotationsSchema demoParams "quote" (by decide)⟩⟩

/-- Looking a member's own name up in a member list with pairwise-distinct
names finds exactly that member. -/
theorem find_name_nodup (ms : List EnumMember) (m : EnumMember)
    (hm : m ∈ ms) (hnd : (ms.map EnumMember.name).Nodup) :
    ms.find? (fun x => x.name == m.name) = some m := by
  induction ms with
  | nil => cases hm
  | cons m2 rest ih =>
    rw [List.map_cons, List.nodup_cons] at hnd
    obtain ⟨hnotin, hnd2⟩ := hnd
    rcases List.mem_cons.mp hm with h | h
    · subst h
      simp [List.find?]
    · have hne : (m2.name == m.name) = false := by
        simp
        intro he
        exact hnotin (he ▸ List.mem_map_of_mem EnumMember.name h)
      simp [List.find?, hne]
      exact ih h hnd2

/-- C6 counterexample: for the int-backed enum with a member zero of backing
value 0 (a falsy member), serialize maps the member to the empty string, so
deserialize of the serialization fails instead of returning the member: the
round trip does not hold for every member. -/
theorem enum_round_trip_cex :
    ¬ (EnumType.deserialize intZeroEnum orderNode
        (.str (EnumType.serialize intZeroEnum orderNode (some ⟨"zero", 0⟩))) =
      .ok (some ⟨"zero", 0⟩)) := by decide

/-- C6 (amended): for every truthy member m of an enum class with distinct
member names (every member of a non-int-backed enum class is truthy), the
round trip deserialize(node, serialize(node, m)) = m holds, and serialize
applied to the absent value returns the empty string. -/
theorem enum_round_trip_truthy (cls : EnumCls) (node : ColNode) (m : EnumMember)
    (hm : m ∈ cls.members) (hnd : (cls.members.map EnumMember.name).Nodup)
    (hf : enumFalsy cls m = false) :
    EnumType.deserialize cls node (.str (EnumType.serialize cls node (some m))) =
      .ok (some m)
    ∧ EnumType.serialize cls node none = "" := by
  constructor
  · simp [EnumType.serialize, hf, EnumType.deserialize, enumGetItem,
      find_name_nodup cls.members m hm hnd]
  · rfl

/-- Witness for the amended C6 at the plain order enum and its member asc. -/
theorem enum_round_trip_truthy_witness :
    (⟨"asc", 1⟩ : EnumMember) ∈ orderEnum.members
    ∧ (orderEnum.members.map EnumMember.name).Nodup
    ∧ enumFalsy orderEnum ⟨"asc", 1⟩ = false
    ∧ (EnumType.deserialize orderEnum orderNode
        (.str (EnumType.serialize orderEnum orderNode (some ⟨"asc", 1⟩))) =
        .ok (some ⟨"asc", 1⟩)
      ∧ EnumType.serialize orderEnum orderNode none = "") :=
  ⟨by decide, by decide, by decide,
   enum_round_trip_truthy orderEnum orderNode ⟨"asc", 1⟩ (by decide) (by decide) (by decide)⟩

/-- C7 counterexample: deserialize applied to the empty string does not return
the absent value — the empty string is not the null sentinel, and on the order
enum it is not a member name either, so the call fails with Invalid. -/
theorem enum_deserialize_empty_string_cex :
    ¬ (EnumType.deserialize orderEnum orderNode (.str "") = .ok none) := by decide

/-- C7 (amended): deserialize applied to the colander null sentinel returns
the absent value without error; deserialize applied to the empty string, which
is a plain token and names no member, fails with Invalid carrying the message
quoting the empty token. -/
theorem enum_deserialize_null_absent (cls : EnumCls) (node : ColNode)
    (h : enumGetItem cls "" = none) :
    EnumType.deserialize cls node .null = .ok none
    ∧ EnumType.deserialize cls node (.str "") =
        .error (.mk node.name ["\"\" is not a known value"] []) :=
  ⟨rfl, by simp [EnumType.deserialize, h]⟩

/-- Witness for the amended C7 at the order enum. -/
theorem enum_deserialize_null_absent_witness :
    enumGetItem orderEnum "" = none
    ∧ (EnumType.deserialize orderEnum orderNode .null = .ok none
      ∧ EnumType.deserialize orderEnum orderNode (.str "") =
          .error (.mk "order" ["\"\" is not a known value"] [])) :=
  ⟨by decide, enum_deserialize_null_absent orderEnum orderNode (by decide)⟩

/-- C8: deserialize maps the null sentinel to absent; any other raw token is
looked up as a member name — a successful lookup returns that member (and the
found member's name is the token: the lookup is by name, never by value), and
a failed lookup raises Invalid on the node with exactly the message quoting
the token followed by "is not a known value". -/
theorem enum_deserialize_name_lookup (cls : EnumCls) (node : ColNode) (token : String) :
    EnumType.deserialize cls node .null = .ok none
    ∧ EnumType.deserialize cls node (.str token) =
        (match enumGetItem cls token with
         | some m => .ok (some m)
         | none => .error (.mk node.name ["\"" ++ token ++ "\" is not a known value"] []))
    ∧ (∀ m, enumGetItem cls token = some m → m.name = token) := by
  refine ⟨rfl, rfl, ?_⟩
  intro m h
  have := List.find?_some h
  exact eq_of_beq this

/-- Witness for C8 at the order enum: a token that is a member name and one
that is not. -/
theorem enum_deserialize_name_lookup_witness :
    (EnumType.deserialize orderEnum orderNode .null = .ok none
    ∧ EnumType.deserialize orderEnum orderNode (.str "desc") =
        (match enumGetItem orderEnum "desc" with
         | some m => .ok (some m)
         | none => .error (.mk orderNode.name ["\"desc\" is not a known value"] []))
    ∧ (∀ m, enumGetItem orderEnum "desc" = some m → m.name = "desc")) :=
  enum_deserialize_name_lookup orderEnum orderNode "desc"

/-- C10: serialize returns the empty string for every falsy appstruct, not
only for the absent sentinel: a falsy member (an int-backed member of backing
value 0) serializes to the empty string instead of its name, and therefore the
round trip deserialize(serialize(m)) = m fails for such a member, while the
absent value also serializes to the empty string. -/
theorem enum_serialize_falsy_empty (cls : EnumCls) (node : ColNode) (m : EnumMember)
    (hf : enumFalsy cls m = true) (hz : enumGetItem cls "" = none) (hn : m.name ≠ "") :
    EnumType.serialize cls node (some m) = ""
    ∧ EnumType.serialize cls node (some m) ≠ m.name
    ∧ EnumType.deserialize cls node (.str (EnumType.serialize cls node (some m))) ≠
        .ok (some m)
    ∧ EnumType.serialize cls node none = "" := by
  have hs : EnumType.serialize cls node (some m) = "" := by simp [EnumType.serialize, hf]
  refine ⟨hs, ?_, ?_, rfl⟩
  · rw [hs]
    exact fun he => hn he.symm
  · rw [hs]
    simp [EnumType.deserialize, hz]

/-- Witness for C10 at the int-backed enum's zero member. -/
theorem enum_serialize_falsy_empty_witness :
    enumFalsy intZeroEnum ⟨"zero", 0⟩ = true
    ∧ enumGetItem intZeroEnum "" = none
    ∧ (⟨"zero", 0⟩ : EnumMember).name ≠ ""
    ∧ (EnumType.serialize intZeroEnum orderNode (some ⟨"zero", 0⟩) = ""
      ∧ EnumType.serialize intZeroEnum orderNode (some ⟨"zero", 0⟩) ≠
          (⟨"zero", 0⟩ : EnumMember).name
      ∧ EnumType.deserialize intZeroEnum orderNode
          (.str (EnumType.serialize intZeroEnum orderNode (some ⟨"zero", 0⟩))) ≠
          .ok (some ⟨"zero", 0⟩)
      ∧ EnumType.serialize intZeroEnum orderNode none = "") :=
  ⟨by decide, by decide, by decide,
   enum_serialize_falsy_empty intZeroEnum orderNode ⟨"zero", 0⟩
     (by decide) (by decide) (by decide)⟩

/-- Python `d[k] = v` binds k to v and leaves every other key's binding
unchanged. -/
theorem lookupS_insertOverwrite (d : List (String × String)) (k0 v0 k : String) :
    lookupS k (insertOverwrite d k0 v0) =
      (if k0 == k then some v0 else lookupS k d) := by
  induction d with
  | nil =>
    by_cases h : k0 = k
    · subst h; simp [insertOverwrite, lookupS]
    · simp [insertOverwrite, lookupS, h]
  | cons kv rest ih =>
    obtain ⟨k2, v2⟩ := kv
    by_cases h20 : k2 = k0
    · subst h20
      by_cases h2k : k2 = k
      · subst h2k; simp [insertOverwrite, lookupS]
      · simp [insertOverwrite, lookupS, h2k]
    · have hb : (k2 == k0) = false := by simp [h20]
      by_cases h2k : k2 = k
      · subst h2k
        have h0k : (k0 == k2) = false := by
          simp
          exact Ne.symm h20
        simp [insertOverwrite, lookupS, hb, h0k]
      · have hb2 : (k2 == k) = false := by simp [h2k]
        simp [insertOverwrite, lookupS, hb, hb2, ih]

/-- A key lookup over an appended dict list searches the left part first. -/
theorem lookupS_append (a b : List (String × String)) (k : String) :
    lookupS k (a ++ b) =
      (match lookupS k a with
       | some v => some v
       | none => lookupS k b) := by
  induction a with
  | nil => simp [lookupS]
  | cons kv rest ih =>
    obtain ⟨k2, v2⟩ := kv
    by_cases h : k2 = k
    · subst h; simp [lookupS]
    · have hb : (k2 == k) = false := by simp [h]
      simp [lookupS, hb, ih]

/-- The last binding of a key in a cons pair list: the tail's last binding
wins, the head only counts when the tail has none. -/
theorem lastLookup_cons (k k1 v1 : String) (rest : List (String × String)) :
    lastLookup k ((k1, v1) :: rest) =
      (match lastLookup k rest with
       | some v => some v
       | none => if k1 == k then some v1 else none) := by
  rw [lastLookup, List.reverse_cons, lookupS_append, lastLookup]
  cases lookupS k rest.reverse <;> simp [lookupS]

/-- Python `d.update(d2)`: a key bound in d2 ends bound to its last value
there, every other key keeps its binding from d. -/
theorem lookupS_dictUpdate (d d2 : List (String × String)) (k : String) :
    lookupS k (dictUpdate d d2) =
      (match lastLookup k d2 with
       | some v => some v
       | none => lookupS k d) := by
  induction d2 generalizing d with
  | nil => simp [dictUpdate, lastLookup, lookupS]
  | cons kv rest ih =>
    obtain ⟨k1, v1⟩ := kv
    simp only [dictUpdate] at ih ⊢
    rw [List.foldl_cons, ih, lastLookup_cons, lookupS_insertOverwrite]
    cases lastLookup k rest <;> cases h : (k1 == k) <;> simp

/-- A findSome? over an appended list searches the left part first. -/
theorem findSome?_append {α β : Type} (f : α → Option β) (a b : List α) :
    (a ++ b).findSome? f =
      (match a.findSome? f with
       | some v => some v
       | none => b.findSome? f) := by
  induction a with
  | nil => simp [List.findSome?]
  | cons x rest ih =>
    cases h : f x <;> simp [List.findSome?_cons, h, ih]

/-- Folding dict updates over a list of dicts: a key's final binding comes
from the last dict in the list that binds it, and from the base dict when none
does. -/
theorem lookupS_foldUpdate (ds : List (List (String × String)))
    (base : List (String × String)) (k : String) :
    lookupS k (ds.foldl dictUpdate base) =
      (match ds.reverse.findSome? (fun d2 => lastLookup k d2) with
       | some v => some v
       | none => lookupS k base) := by
  induction ds generalizing base with
  | nil => simp [List.findSome?]
  | cons d2 rest ih =>
    rw [List.foldl_cons, ih, List.reverse_cons, findSome?_append]
    cases h : rest.reverse.findSome? (fun d3 => lastLookup k d3) <;>
      cases h2 : lastLookup k d2 <;>
        simp [List.findSome?, h, h2, lookupS_dictUpdate]

/-- C9: when the underlying deserializer fails, validate_query_params raises a
ValidationError whose message newline-joins the "path: message" entries of the
dict built by taking the top-level error's path-to-message mapping and merging
each child error's mapping over it; for any path, the merged dict holds the
entry of the last child error binding that path, a child's entry thereby
unconditionally overwriting a parent-level entry, and the top-level entry only
surviving when no child binds the path. -/
theorem validate_query_params_error_aggregation (schema : ColSchema)
    (params : List (String × String)) (exc : ColInvalid) (k : String)
    (h : schemaDeserialize schema (combineRepeatedFields schema params) = .error exc) :
    validateQueryParams schema params =
      .error (String.intercalate "\n"
        ((exc.children.foldl (fun d c => dictUpdate d c.asdict) exc.asdict).map
          (fun kv => kv.1 ++ ": " ++ kv.2)))
    ∧ lookupS k (exc.children.foldl (fun d c => dictUpdate d c.asdict) exc.asdict) =
        (match (exc.children.map ColInvalid.asdict).reverse.findSome?
            (fun d2 => lastLookup k d2) with
         | some v => some v
         | none => lookupS k exc.asdict) := by
  constructor
  · simp only [validateQueryParams, h]
    rfl
  · have hmap : exc.children.foldl (fun d c => dictUpdate d c.asdict) exc.asdict =
        (exc.children.map ColInvalid.asdict).foldl dictUpdate exc.asdict :=
      (List.foldl_map ColInvalid.asdict dictUpdate exc.children exc.asdict).symm
    rw [hmap, lookupS_foldUpdate]

/-- Witness for C9 at a concrete failing multimap: limit and offset both carry
non-numeric values, so the deserializer fails with a root error whose children
are the two per-field errors. -/
theorem validate_query_params_error_aggregation_witness :
    schemaDeserialize searchAnnotationsSchema
        (combineRepeatedFields searchAnnotationsSchema
          [("limit", "abc"), ("offset", "xyz")]) =
      .error (.mk "" []
        [.mk "limit" ["\"abc\" is not a number"] [],
         .mk "offset" ["\"xyz\" is not a number"] []])
    ∧ (validateQueryParams searchAnnotationsSchema [("limit", "abc"), ("offset", "xyz")] =
        .error (String.intercalate "\n"
          (((ColInvalid.mk "" []
              [.mk "limit" ["\"abc\" is not a number"] [],
               .mk "offset" ["\"xyz\" is not a number"] []]).children.foldl
              (fun d c => dictUpdate d c.asdict)
              (ColInvalid.mk "" []
                [.mk "limit" ["\"abc\" is not a number"] [],
                 .mk "offset" ["\"xyz\" is not a number"] []]).asdict).map
            (fun kv => kv.1 ++ ": " ++ kv.2)))
      ∧ lookupS "limit"
          ((ColInvalid.mk "" []
              [.mk "limit" ["\"abc\" is not a number"] [],
               .mk "offset" ["\"xyz\" is not a number"] []]).children.foldl
            (fun d c => dictUpdate d c.asdict)
            (ColInvalid.mk "" []
              [.mk "limit" ["\"abc\" is not a number"] [],
               .mk "offset" ["\"xyz\" is not a number"] []]).asdict) =
          (match ((ColInvalid.mk "" []
              [.mk "limit" ["\"abc\" is not a number"] [],
               .mk "offset" ["\"xyz\" is not a number"] []]).children.map
                ColInvalid.asdict).reverse.findSome?
              (fun d2 => lastLookup "limit" d2) with
           | some v => some v
           | none => lookupS "limit"
               (ColInvalid.mk "" []
                 [.mk "limit" ["\"abc\" is not a number"] [],
                  .mk "offset" ["\"xyz\" is not a number"] []]).asdict)) :=
  ⟨by decide,
   validate_query_params_error_aggregation searchAnnotationsSchema
     [("limit", "abc"), ("offset", "xyz")]
     (.mk "" []
       [.mk "limit" ["\"abc\" is not a number"] [],
        .mk "offset" ["\"xyz\" is not a number"] []])
     "limit" (by decide)⟩
